import Mathlib

/-!
Verification of the orange_nethack session/payout/log-parsing core.

This file gives a shallow embedding, in Lean 4, of the parts of the
orange_nethack code base that the specification claims talk about:

  * the xlogfile parser (src/orange_nethack/game/xlogfile.py),
  * the XlogEntry model and its cheat-mode flag decoding
    (src/orange_nethack/models.py),
  * the database operation contracts (src/orange_nethack/database.py),
  * the payout orchestrator (src/orange_nethack/game/payout.py),
  * the payment confirmation gate (src/orange_nethack/api/webhooks.py),
  * the game-completion handler (src/orange_nethack/game/monitor.py),
  * the websocket terminal bridge (src/orange_nethack/api/terminal.py).

Python strings are embedded as Lean `String`/`List Char` (the code only
ever handles ASCII data in the claims at hand; text-mode byte offsets are
modelled as character counts).  Python `int` is embedded as `Int`.
Fallible Python operations (`int(...)`, keyword-argument binding) are
embedded with `Option`/`Except`.  Two `Database` methods that the code
calls but that `database.py` does not define are modelled from the spec
and are clearly marked as such below.
-/

/-! ### Python primitive helpers -/

/-- Characters treated as whitespace by Python `str.strip()` (ASCII part). -/
def pyIsSpace (c : Char) : Bool :=
  c = ' ' || c = '\t' || c = '\n' || c = '\r' || c = '\x0b' || c = '\x0c'

/-- Python `str.strip()` on a character list. -/
def pyStripList (cs : List Char) : List Char :=
  ((cs.dropWhile pyIsSpace).reverse.dropWhile pyIsSpace).reverse

/-- Python `str.strip()`. -/
def pyStrip (s : String) : String :=
  ⟨pyStripList s.data⟩

/-- ASCII lower-casing of one character, as Python `str.lower()` does on ASCII. -/
def pyToLower (c : Char) : Char :=
  if 'A' ≤ c ∧ c ≤ 'Z' then Char.ofNat (c.toNat + 32) else c

/-- Python `str.lower()` on a character list (ASCII fragment). -/
def pyLowerList (cs : List Char) : List Char :=
  cs.map pyToLower

/-- Python `str.startswith(p)` on character lists. -/
def listStartsWith : List Char → List Char → Bool
  | [], _ => true
  | _ :: _, [] => false
  | p :: ps, c :: cs => p = c && listStartsWith ps cs

/-- Python substring test `p in s` on character lists. -/
def listContainsSub (p : List Char) : List Char → Bool
  | [] => listStartsWith p []
  | c :: cs => listStartsWith p (c :: cs) || listContainsSub p cs

/-- Decimal digit run with Python underscore grouping, accumulating a value.
Accepts a single underscore between two digits, as Python `int` does. -/
def pyDigitsAux : List Char → Nat → Option Nat
  | [], acc => some acc
  | '_' :: c :: cs, acc =>
      if c.isDigit then pyDigitsAux cs (acc * 10 + (c.toNat - 48)) else none
  | ['_'], _ => none
  | c :: cs, acc =>
      if c.isDigit then pyDigitsAux cs (acc * 10 + (c.toNat - 48)) else none

/-- Nonempty decimal digit run, first character must be a digit. -/
def pyDigits : List Char → Option Nat
  | [] => none
  | c :: cs => if c.isDigit then pyDigitsAux cs (c.toNat - 48) else none

/-- Python `int(s)` (base 10): strip whitespace, optional sign, digits. -/
def pyInt (s : String) : Option Int :=
  match pyStripList s.data with
  | '+' :: r => (pyDigits r).map (Int.ofNat)
  | '-' :: r => (pyDigits r).map (fun n => -(n : Int))
  | r => (pyDigits r).map (Int.ofNat)

/-- Value of one hexadecimal digit. -/
def hexVal (c : Char) : Option Nat :=
  if c.isDigit then some (c.toNat - 48)
  else if 'a' ≤ c ∧ c ≤ 'f' then some (c.toNat - 87)
  else if 'A' ≤ c ∧ c ≤ 'F' then some (c.toNat - 55)
  else none

/-- Hexadecimal digit run with Python underscore grouping. -/
def pyHexAux : List Char → Nat → Option Nat
  | [], acc => some acc
  | '_' :: c :: cs, acc =>
      match hexVal c with
      | some v => pyHexAux cs (acc * 16 + v)
      | none => none
  | ['_'], _ => none
  | c :: cs, acc =>
      match hexVal c with
      | some v => pyHexAux cs (acc * 16 + v)
      | none => none

/-- Nonempty hexadecimal digit run. -/
def pyHexDigits : List Char → Option Nat
  | [] => none
  | c :: cs =>
      match hexVal c with
      | some v => pyHexAux cs v
      | none => none

/-- Python `int(s, 16)`: strip, optional sign, optional 0x/0X prefix, hex digits. -/
def pyIntBase16 (s : String) : Option Int :=
  let core : List Char → Option Nat := fun r =>
    if listStartsWith ['0', 'x'] r ∨ listStartsWith ['0', 'X'] r then
      pyHexDigits (r.drop 2)
    else pyHexDigits r
  match pyStripList s.data with
  | '+' :: r => (core r).map (Int.ofNat)
  | '-' :: r => (core r).map (fun n => -(n : Int))
  | r => (core r).map (Int.ofNat)

/-- Truthiness of Python `int | None` (used for `if session_id:`). -/
def pyTruthyOptNat : Option Nat → Bool
  | none => false
  | some n => n ≠ 0

/-- Truthiness of Python `str | None` (used for `elif payment_hash:`). -/
def pyTruthyOptStr : Option String → Bool
  | none => false
  | some s => s ≠ ""

/-- Two-complement bit 0 test of a Python integer: `n & 0x1` is nonzero. -/
def intBit0 (n : Int) : Bool :=
  n.emod 2 = 1

/-- Two-complement bit 1 test of a Python integer: `n & 0x2` is nonzero. -/
def intBit1 (n : Int) : Bool :=
  (n.ediv 2).emod 2 = 1

/-! ### XlogEntry (models.py) -/

/-- Parsed xlogfile record, after `XlogEntry` in models.py.  String fields
keep Python `str | None` as `Option String`; numeric fields keep
`int | None` as `Option Int`. -/
structure XlogEntry where
  version : Option String
  points : Int
  deathdnum : Option Int
  deathlev : Option Int
  maxlvl : Option Int
  hp : Option Int
  maxhp : Option Int
  deaths : Option Int
  deathdate : Option String
  birthdate : Option String
  uid : Option Int
  role : Option String
  race : Option String
  gender : Option String
  align : Option String
  name : String
  death : String
  conduct : Option String
  turns : Int
  achieve : Option String
  realtime : Option Int
  starttime : Option Int
  endtime : Option Int
  gender0 : Option String
  align0 : Option String
  flags : Option String
  deriving DecidableEq

namespace XlogEntry

/-- Property `ascended` of models.py: the lower-cased death text contains
the word ascended. -/
def ascendedB (e : XlogEntry) : Bool :=
  listContainsSub "ascended".data (pyLowerList e.death.data)

/-- Property `score` of models.py. -/
def score (e : XlogEntry) : Int :=
  e.points

/-- Parse the `flags` field the way both mode properties in models.py do:
base 16 when the string starts with 0x, else base 10; parse failure and a
missing or empty field count as not flagged (the Python property catches
ValueError and TypeError and treats falsy flags as absent). -/
def flagsInt (e : XlogEntry) : Option Int :=
  match e.flags with
  | none => none
  | some f =>
      if f = "" then none
      else if listStartsWith "0x".data f.data then pyIntBase16 f
      else pyInt f

/-- Property `is_explore_mode` of models.py: bit 1 of the flags field. -/
def is_explore_mode (e : XlogEntry) : Bool :=
  match e.flagsInt with
  | none => false
  | some n => intBit1 n

/-- Property `is_wizard_mode` of models.py: bit 0 of the flags field. -/
def is_wizard_mode (e : XlogEntry) : Bool :=
  match e.flagsInt with
  | none => false
  | some n => intBit0 n

/-- Property `is_cheat_mode` of models.py: explore mode or wizard mode. -/
def is_cheat_mode (e : XlogEntry) : Bool :=
  e.is_explore_mode || e.is_wizard_mode

end XlogEntry

/-! ### The xlogfile parser (game/xlogfile.py) -/

/-- Python `s.split(sep)` on character lists (single-character separator). -/
def splitOnChar (sep : Char) : List Char → List (List Char)
  | [] => [[]]
  | c :: cs =>
      if c = sep then [] :: splitOnChar sep cs
      else
        match splitOnChar sep cs with
        | [] => [[c]]
        | f :: rest => (c :: f) :: rest

/-- The colon-separated field scanner of `parse_xlogfile_line`, embedding the
character loop with its two pieces of state (`in_value`, `current`).  Note
that the source never resets `in_value` to False (the commented reset branch
is a no-op), so every colon after the first equals sign is kept verbatim. -/
def colonLoop : List Char → Bool → List Char → List (List Char)
  | [], _, cur => if cur.isEmpty then [] else [cur]
  | c :: cs, inV, cur =>
      if c = ':' ∧ inV = false then
        (if cur.isEmpty then colonLoop cs inV [] else cur :: colonLoop cs inV [])
      else if c = '=' then colonLoop cs true (cur ++ ['='])
      else colonLoop cs inV (cur ++ [c])

/-- Python dict assignment `d[k] = v` on an association list: overwrite the
existing binding if present, else append. -/
def dictSet (k v : String) (d : List (String × String)) : List (String × String) :=
  if d.any (fun p => p.1 = k) then
    d.map (fun p => if p.1 = k then (k, v) else p)
  else d ++ [(k, v)]

/-- Python dict lookup `d.get(k)`. -/
def dictGet (k : String) (d : List (String × String)) : Option String :=
  (d.find? (fun p => p.1 = k)).map (·.2)

/-- One iteration of the `key, _, value = field.partition("=")` loop of
`parse_xlogfile_line`: fields without an equals sign are skipped, the field
is split at its first equals sign, key and value are stripped, and an empty
key is dropped. -/
def insertField (d : List (String × String)) (f : List Char) : List (String × String) :=
  if f.contains '=' then
    let key := pyStripList (f.takeWhile (· ≠ '='))
    let val := pyStripList ((f.dropWhile (· ≠ '=')).drop 1)
    if key.isEmpty then d else dictSet ⟨key⟩ ⟨val⟩ d
  else d

/-- Integer field that defaults to 0 when absent: `int(data.get(k, 0))`. -/
def reqIntField (d : List (String × String)) (k : String) : Option Int :=
  match dictGet k d with
  | none => some 0
  | some v => pyInt v

/-- Optional integer field: `int(data[k]) if k in data else None`; a present
but unparseable value makes the whole record fail (ValueError is caught by
the caller, which returns None). -/
def optIntField (d : List (String × String)) (k : String) : Option (Option Int) :=
  match dictGet k d with
  | none => some none
  | some v => (pyInt v).map some

/-- Embedding of `parse_xlogfile_line` (game/xlogfile.py).  Total: every
raising operation of the source is either guarded or caught there
(`except (ValueError, TypeError): return None`), so the embedding returns
`Option XlogEntry` and never fails in any other way. -/
def parse_xlogfile_line (s : String) : Option XlogEntry :=
  let cs := pyStripList s.data
  if cs.isEmpty then none
  else
    let fields :=
      if cs.contains '\t' then splitOnChar '\t' cs
      else
        let fs := colonLoop cs false []
        if fs.isEmpty ∨ ¬ fs.any (fun f => f.contains '=') then splitOnChar ':' cs
        else fs
    let data := fields.foldl insertField []
    if data.isEmpty then none
    else
      (do
        let points ← reqIntField data "points"
        let deathdnum ← optIntField data "deathdnum"
        let deathlev ← optIntField data "deathlev"
        let maxlvl ← optIntField data "maxlvl"
        let hp ← optIntField data "hp"
        let maxhp ← optIntField data "maxhp"
        let deaths ← optIntField data "deaths"
        let uid ← optIntField data "uid"
        let turns ← reqIntField data "turns"
        let realtime ← optIntField data "realtime"
        let starttime ← optIntField data "starttime"
        let endtime ← optIntField data "endtime"
        some
          { version := dictGet "version" data
            points := points
            deathdnum := deathdnum
            deathlev := deathlev
            maxlvl := maxlvl
            hp := hp
            maxhp := maxhp
            deaths := deaths
            deathdate := dictGet "deathdate" data
            birthdate := dictGet "birthdate" data
            uid := uid
            role := dictGet "role" data
            race := dictGet "race" data
            gender := dictGet "gender" data
            align := dictGet "align" data
            name := (dictGet "name" data).getD ""
            death := (dictGet "death" data).getD ""
            conduct := dictGet "conduct" data
            turns := turns
            achieve := dictGet "achieve" data
            realtime := realtime
            starttime := starttime
            endtime := endtime
            gender0 := dictGet "gender0" data
            align0 := dictGet "align0" data
            flags := dictGet "flags" data })

/-! ### File tailing (game/xlogfile.py): tail_xlogfile and XlogfileWatcher.

The file system is modelled as `Option String`: `none` when the file does
not exist, `some c` when it exists with content `c`.  Python iterates a
text-mode file line by line keeping the newline; `f.tell()` after reading
to end-of-file is the content length when the seek position was inside the
file and the unchanged seek position when it was past the end. -/

/-- Python text-file line iteration (keepends): split after each newline,
a final fragment without newline is its own line, empty input gives no
lines.  The accumulator carries the current partial line. -/
def pyLinesAux : List Char → List Char → List (List Char)
  | [], cur => if cur.isEmpty then [] else [cur]
  | c :: cs, cur =>
      if c = '\n' then (cur ++ ['\n']) :: pyLinesAux cs []
      else pyLinesAux cs (cur ++ [c])

/-- Embedding of `tail_xlogfile(path, last_position)`: missing file gives
an empty batch and offset 0; otherwise seek, parse each remaining line,
drop unparseable ones, and report the end-of-read offset. -/
def tail_xlogfile (file : Option String) (last_position : Nat) :
    List XlogEntry × Nat :=
  match file with
  | none => ([], 0)
  | some c =>
      let rest := c.data.drop last_position
      let entries := (pyLinesAux rest []).filterMap (fun l => parse_xlogfile_line ⟨l⟩)
      (entries, max last_position c.data.length)

/-- Watcher state: the monotonically advancing byte offset of
`XlogfileWatcher`. -/
structure XlogfileWatcher where
  position : Nat
  deriving DecidableEq

/-- Embedding of `XlogfileWatcher.__init__` together with
`_initialize_position`: the offset starts at the current end of the file,
or 0 when the file does not exist. -/
def XlogfileWatcher.init (file : Option String) : XlogfileWatcher :=
  match file with
  | none => ⟨0⟩
  | some c => ⟨c.data.length⟩

/-- Embedding of `XlogfileWatcher.get_new_entries`, reading against the
file content at call time. -/
def XlogfileWatcher.get_new_entries (file : Option String) (w : XlogfileWatcher) :
    List XlogEntry × XlogfileWatcher :=
  let (entries, newPosition) := tail_xlogfile file w.position
  (entries, ⟨newPosition⟩)

/-! ### Database model (database.py)

The ledger state carries the single pot row, the session rows and the game
rows.  SQLite timestamps (`created_at`, `ended_at`, `updated_at`) play no
role in any claim and are not modelled.  Row order models insertion order;
an unordered SQLite `SELECT ... LIMIT 1` style lookup is embedded as
`List.find?`, which is exact whenever the looked-up key is unique (the
schema declares `id`, `username` and `payment_hash` UNIQUE). -/

inductive SessionStatus where
  | pending
  | active
  | playing
  | ended
  deriving DecidableEq

/-- One row of the `sessions` table, after the SCHEMA in database.py.
The schema has no access_token column; see the terminal bridge embedding. -/
structure Session where
  id : Nat
  username : String
  password : String
  lightning_address : Option String
  email : Option String
  linux_uid : Option Int
  payment_hash : String
  ante_sats : Int
  status : SessionStatus
  deriving DecidableEq

/-- One row of the `games` table, after the SCHEMA in database.py. -/
structure Game where
  session_id : Nat
  death_reason : String
  score : Int
  turns : Int
  ascended : Bool
  payout_sats : Option Int
  payout_hash : Option String
  deriving DecidableEq

/-- The ledger state: pot balance plus session and game rows. -/
structure DBState where
  pot : Int
  sessions : List Session
  games : List Game
  deriving DecidableEq

/-- Settings fields the embedded core reads. -/
structure Settings where
  pot_initial : Int
  deriving DecidableEq

namespace Database

/-- Embedding of `get_pot_balance` (the pot row exists after `init`). -/
def get_pot_balance (db : DBState) : Int :=
  db.pot

/-- Embedding of `add_to_pot`: increment the balance and return the balance
read back after the update. -/
def add_to_pot (amount_sats : Int) (db : DBState) : Int × DBState :=
  (db.pot + amount_sats, { db with pot := db.pot + amount_sats })

/-- Embedding of `drain_pot`: read the balance, reset the pot row to
`pot_initial` from the settings, and return the pre-drain balance. -/
def drain_pot (settings : Settings) (db : DBState) : Int × DBState :=
  (db.pot, { db with pot := settings.pot_initial })

/-- Modelled from the spec: `Database.set_pot_balance` is called by
`PayoutService.handle_ascension` (payout.py line 65) and by the CLI pot
commands, but `database.py` defines no such method.  The spec (section 4.5)
requires the compensating action to restore the pool to exactly the amount
it is given, so the model sets the pot balance to its argument. -/
def set_pot_balance (amount_sats : Int) (db : DBState) : DBState :=
  { db with pot := amount_sats }

/-- Embedding of `get_session` (lookup by primary key). -/
def get_session (session_id : Nat) (db : DBState) : Option Session :=
  db.sessions.find? (fun s => s.id = session_id)

/-- Embedding of `get_session_by_payment_hash`. -/
def get_session_by_payment_hash (payment_hash : String) (db : DBState) :
    Option Session :=
  db.sessions.find? (fun s => s.payment_hash = payment_hash)

/-- Embedding of `get_session_by_uid`: the row whose linux_uid matches and
whose status is active or playing. -/
def get_session_by_uid (linux_uid : Int) (db : DBState) : Option Session :=
  db.sessions.find? (fun s =>
    s.linux_uid = some linux_uid ∧ (s.status = .active ∨ s.status = .playing))

/-- Embedding of `set_linux_uid`. -/
def set_linux_uid (session_id : Nat) (linux_uid : Int) (db : DBState) : DBState :=
  { db with
    sessions := db.sessions.map (fun s =>
      if s.id = session_id then { s with linux_uid := some linux_uid } else s) }

/-- Embedding of `update_session_status` (unconditional status write). -/
def update_session_status (session_id : Nat) (status : SessionStatus)
    (db : DBState) : DBState :=
  { db with
    sessions := db.sessions.map (fun s =>
      if s.id = session_id then { s with status := status } else s) }

/-- Modelled from the spec: `Database.update_session_status_if_pending` is
called by `confirm_payment` (webhooks.py line 72) but `database.py` defines
no such method.  The spec (section 4.3) requires a single atomic transition
to the given status only if the session is currently pending, reporting
whether a row changed, so the model updates exactly the matching pending
rows and reports whether there was one. -/
def update_session_status_if_pending (session_id : Nat) (status : SessionStatus)
    (db : DBState) : Bool × DBState :=
  (db.sessions.any (fun s => s.id = session_id ∧ s.status = .pending),
   { db with
     sessions := db.sessions.map (fun s =>
       if s.id = session_id ∧ s.status = .pending then { s with status := status }
       else s) })

/-- Embedding of `create_game` as defined in database.py: its parameters
are exactly `session_id`, `death_reason`, `score`, `turns`, `ascended`,
`payout_sats` and `payout_hash`; the row is appended. -/
def create_game (session_id : Nat) (death_reason : String) (score turns : Int)
    (ascended : Bool) (payout_sats : Option Int) (payout_hash : Option String)
    (db : DBState) : DBState :=
  { db with
    games := db.games ++
      [{ session_id := session_id, death_reason := death_reason, score := score,
         turns := turns, ascended := ascended, payout_sats := payout_sats,
         payout_hash := payout_hash }] }

end Database

/-! ### Lightning address validation (models.py, SetAddressRequest) -/

/-- Character class of the local part of the address regex:
one of a-z, A-Z, 0-9, dot, underscore, plus, minus. -/
def isAddrLocalChar (c : Char) : Bool :=
  c.isAlpha || c.isDigit || c = '.' || c = '_' || c = '+' || c = '-'

/-- Character class of the domain part of the address regex:
one of a-z, A-Z, 0-9, dot, minus. -/
def isAddrDomainChar (c : Char) : Bool :=
  c.isAlpha || c.isDigit || c = '.' || c = '-'

/-- ASCII letter. -/
def isAsciiAlpha (c : Char) : Bool :=
  c.isAlpha

/-- Core match of the regex
`[a-zA-Z0-9._+-]+ at-sign [a-zA-Z0-9.-]+ dot [a-zA-Z]{2,}` anchored at both
ends.  The local class excludes the at-sign, so the at-sign of the pattern
is the first at-sign of the string; the final group is all letters, so the
dot of the pattern is the last dot after the at-sign. -/
def emailCore (cs : List Char) : Bool :=
  let localPart := cs.takeWhile (· ≠ '@')
  match cs.dropWhile (· ≠ '@') with
  | '@' :: rest =>
      let tldRev := rest.reverse.takeWhile (· ≠ '.')
      match rest.reverse.dropWhile (· ≠ '.') with
      | '.' :: midRev =>
          ¬ localPart.isEmpty ∧ localPart.all isAddrLocalChar ∧
          ¬ midRev.isEmpty ∧ midRev.all isAddrDomainChar ∧
          2 ≤ tldRev.length ∧ tldRev.all isAsciiAlpha
      | _ => false
  | _ => false

/-- Python `re.match` on this pattern: anchored at the start, and the final
dollar of the pattern also matches just before one trailing newline. -/
def emailRegexMatch (s : String) : Bool :=
  emailCore s.data ||
    (s.data.getLast? = some '\n' && emailCore s.data.dropLast)

/-- Embedding of the `SetAddressRequest.validate_lightning_address`
validator (models.py): strip, reject empty; a string containing an at-sign
must match the address regex; otherwise a string whose lower-casing starts
with lnurl1 must have length at least 10; anything else is rejected.
Returns the validated (stripped) address, or `none` when the pydantic
validator raises. -/
def validateLightningAddress (v : String) : Option String :=
  let w := pyStrip v
  if w = "" then none
  else if w.data.contains '@' then
    if emailRegexMatch w then some w else none
  else if listStartsWith "lnurl1".data (pyLowerList w.data) then
    if w.data.length < 10 then none else some w
  else none

/-! ### Payout orchestrator (game/payout.py) -/

/-- Result of `StrikeClient.pay_lnurl` (lightning/strike.py, PaymentResult). -/
structure PaymentResult where
  success : Bool
  payment_hash : Option String
  error : Option String
  deriving DecidableEq

/-- Return value of a successful `handle_ascension`. -/
structure Payout where
  amount : Int
  payment_hash : Option String
  lightning_address : String
  deriving DecidableEq

/-- Externally visible money-moving effects of a run, used to state that a
branch never attempts a payout. -/
inductive Effect where
  | payLnurl (address : String) (amount_sats : Int)
  deriving DecidableEq

/-- Embedding of `PayoutService.handle_ascension`.  The external Lightning
client is a parameter `pay` giving the result of `pay_lnurl` for an address
and amount.  Returned: the payout result, the final ledger state, and the
trace of attempted payouts.  The compensation path calls the spec-modelled
`Database.set_pot_balance` (the method the source invokes but database.py
does not define). -/
def handle_ascension (settings : Settings) (pay : String → Int → PaymentResult)
    (session : Session) (db : DBState) :
    Option Payout × DBState × List Effect :=
  let la := session.lightning_address.getD ""
  if la = "" then (none, db, [])
  else
    match validateLightningAddress la with
    | none => (none, db, [])
    | some addr =>
        let (pot_amount, db1) := Database.drain_pot settings db
        if pot_amount ≤ 0 then (none, db1, [])
        else
          let r := pay addr pot_amount
          if r.success then
            (some { amount := pot_amount, payment_hash := r.payment_hash,
                    lightning_address := addr },
             db1, [.payLnurl addr pot_amount])
          else
            (none, Database.set_pot_balance pot_amount db1,
             [.payLnurl addr pot_amount])

/-! ### Payment confirmation gate (api/webhooks.py) -/

/-- Embedding of the `PaymentConfirmationResult` dataclass. -/
structure PaymentConfirmationResult where
  success : Bool
  session_id : Option Nat
  username : Option String
  pot_balance : Option Int
  error : Option String
  already_processed : Bool
  deriving DecidableEq

/-- Embedding of `confirm_payment` (webhooks.py).  The external account
provisioner is a parameter `provision`: `some uid` when
`UserManager.create_user` returns that uid, `none` when it raises (the
source logs and keeps going either way).  Email sending touches no ledger
state and is not modelled.  The atomic transition uses the spec-modelled
`Database.update_session_status_if_pending`. -/
def confirm_payment (payment_hash : Option String) (session_id : Option Nat)
    (skip_user_creation : Bool) (provision : Option Int) (db : DBState) :
    PaymentConfirmationResult × DBState :=
  let sessionLookup : Option (Option Session) :=
    if pyTruthyOptNat session_id then
      some (Database.get_session (session_id.getD 0) db)
    else if pyTruthyOptStr payment_hash then
      some (Database.get_session_by_payment_hash (payment_hash.getD "") db)
    else none
  match sessionLookup with
  | none =>
      ({ success := false, session_id := none, username := none,
         pot_balance := none,
         error := some "Must provide either payment_hash or session_id",
         already_processed := false }, db)
  | some none =>
      ({ success := false, session_id := none, username := none,
         pot_balance := none, error := some "Session not found",
         already_processed := false }, db)
  | some (some session) =>
      let (was_pending, db1) :=
        Database.update_session_status_if_pending session.id .active db
      if ¬ was_pending then
        ({ success := true, session_id := some session.id,
           username := some session.username, pot_balance := none,
           error := none, already_processed := true }, db1)
      else
        let (new_pot, db2) := Database.add_to_pot session.ante_sats db1
        let db3 :=
          if ¬ skip_user_creation then
            match provision with
            | some uid => Database.set_linux_uid session.id uid db2
            | none => db2
          else db2
        ({ success := true, session_id := some session.id,
           username := some session.username, pot_balance := some new_pot,
           error := none, already_processed := false }, db3)

/-- Repeated calls of `confirm_payment` with the same arguments, threading
the ledger state; returns all results in call order and the final state. -/
def confirmN (payment_hash : Option String) (session_id : Option Nat)
    (skip_user_creation : Bool) (provision : Option Int) :
    Nat → DBState → List PaymentConfirmationResult × DBState
  | 0, db => ([], db)
  | n + 1, db =>
      let (r, db1) :=
        confirm_payment payment_hash session_id skip_user_creation provision db
      let (rs, dbf) :=
        confirmN payment_hash session_id skip_user_creation provision n db1
      (r :: rs, dbf)

/-! ### Game-completion handler (game/monitor.py) -/

/-- Python exceptions the embedded completion handler can surface. -/
inductive PyErr where
  | typeError
  deriving DecidableEq

/-- Embedding of `GameMonitor._handle_game_end`.  The flow follows the
source: drop records without a uid, detect cheat modes, resolve the session
by linux uid, re-check the status, run the payout orchestrator on a genuine
ascension, then record the game and end the session.

The recording step is the call

  db.create_game(session_id=..., character_name=entry.name, death_reason=...,
                 score=..., turns=..., ascended=..., payout_sats=...,
                 payout_hash=..., role=..., race=..., gender=..., align=...,
                 deathlev=..., hp=..., maxhp=..., conduct=..., achieve=...)

but `Database.create_game` (database.py lines 219-239) declares none of the
keyword parameters `character_name`, `role`, `race`, `gender`, `align`,
`deathlev`, `hp`, `maxhp`, `conduct`, `achieve`, so Python raises TypeError
at the call before any row is written; the embedding surfaces that error,
and the subsequent `update_session_status(..., ended)`, email and user
cleanup steps are unreachable. -/
def handleGameEnd (settings : Settings) (pay : String → Int → PaymentResult)
    (entry : XlogEntry) (db : DBState) :
    Except PyErr Unit × DBState × List Effect :=
  match entry.uid with
  | none => (.ok (), db, [])
  | some uid =>
      let is_cheated := entry.is_cheat_mode
      match Database.get_session_by_uid uid db with
      | none => (.ok (), db, [])
      | some session =>
          if ¬ (session.status = .active ∨ session.status = .playing) then
            (.ok (), db, [])
          else
            let (_payoutResult, db1, trace) :=
              if entry.ascendedB ∧ ¬ is_cheated then
                handle_ascension settings pay session db
              else (none, db, [])
            (.error .typeError, db1, trace)

/-! ### Terminal bridge entry (api/terminal.py, websocket_terminal) -/

/-- Observable actions of the websocket endpoint up to the streaming phase:
diagnostic text frames, closes with their application close code, and the
attempt to open the upstream SSH connection. -/
inductive WsAction where
  | sendText (text : String)
  | close (code : Option Nat)
  | sshConnect (username password : String)
  deriving DecidableEq

/-- Embedding of `secrets.compare_digest` on strings: equality (the
constant-time property has no observable value in this model). -/
def compare_digest (a b : String) : Bool :=
  a = b

/-- Embedding of `websocket_terminal` (api/terminal.py lines 183-239) up to
entering the streaming phase.  `token` is the caller-presented bearer
token, `sshOk` the outcome of `SSHBridge.connect`.  The sessions SCHEMA in
database.py has no access_token column, so `session.get("access_token")`
is `None` for every session row; the embedding spells that value out.
ANSI colour escapes around the diagnostic texts are elided. -/
def websocket_terminal (db : DBState) (session_id : Nat) (token : Option String)
    (sshOk : Bool) : List WsAction :=
  match Database.get_session session_id db with
  | none => [.sendText "Error: Session not found", .close (some 4004)]
  | some session =>
      if ¬ (session.status = .active ∨ session.status = .playing) then
        [.sendText "Error: Session is not active", .close (some 4003)]
      else
        let storedToken := (none : Option String).getD ""
        if ¬ compare_digest storedToken (token.getD "") then
          [.sendText "Error: Invalid access token", .close (some 4003)]
        else if session.username = "" ∨ session.password = "" then
          [.sendText "Error: Missing credentials", .close (some 4002)]
        else if ¬ sshOk then
          [.sshConnect session.username session.password,
           .sendText "Error: Failed to connect to SSH server",
           .close (some 4001)]
        else
          [.sshConnect session.username session.password]

deriving instance DecidableEq for Except

/-! ### Helper lemmas -/

lemma mem_of_mem_dropWhile {p : Char → Bool} :
    ∀ {l : List Char} {c : Char}, c ∈ l.dropWhile p → c ∈ l := by
  intro l
  induction l with
  | nil => intro c hc; simp at hc
  | cons x xs ih =>
      intro c hc
      by_cases hx : p x
      · simp only [List.dropWhile_cons, hx, if_true] at hc
        exact List.mem_cons_of_mem _ (ih hc)
      · simp only [List.dropWhile_cons, hx] at hc
        simpa using hc

lemma mem_of_mem_pyStripList {c : Char} {cs : List Char}
    (h : c ∈ pyStripList cs) : c ∈ cs := by
  unfold pyStripList at h
  rw [List.mem_reverse] at h
  have h1 := mem_of_mem_dropWhile h
  rw [List.mem_reverse] at h1
  exact mem_of_mem_dropWhile h1

/-- Payout branches only ever touch the pot row: sessions and games are
untouched by `handle_ascension`. -/
lemma handle_ascension_sessions_games (settings : Settings)
    (pay : String → Int → PaymentResult) (session : Session) (db : DBState) :
    (handle_ascension settings pay session db).2.1.sessions = db.sessions ∧
    (handle_ascension settings pay session db).2.1.games = db.games := by
  unfold handle_ascension Database.drain_pot Database.set_pot_balance
  by_cases h1 : session.lightning_address.getD "" = ""
  · simp [h1]
  · simp only [h1, if_false]
    cases hv : validateLightningAddress (session.lightning_address.getD "") with
    | none => simp
    | some addr =>
        by_cases h2 : db.pot ≤ 0
        · simp [h2]
        · by_cases h3 : (pay addr db.pot).success
          · simp [h2, h3]
          · simp [h2, h3]

/-! ### Claim C7 -/

/-- Claim C7: for every session whose lightning address is absent or
syntactically invalid (fails the `SetAddressRequest` validator),
`handle_ascension` returns none and the ledger state is completely
untouched — in particular the pool is not drained, and no payout is
attempted (empty effect trace). -/
theorem invalid_address_leaves_pool_untouched (settings : Settings)
    (pay : String → Int → PaymentResult) (session : Session) (db : DBState)
    (hval : validateLightningAddress (session.lightning_address.getD "") = none) :
    handle_ascension settings pay session db = (none, db, []) := by
  unfold handle_ascension
  by_cases hla : session.lightning_address.getD "" = ""
  · simp [hla]
  · simp [hla, hval]

/-- Witness for C7: a concrete session whose address fails validation. -/
theorem invalid_address_leaves_pool_untouched_witness :
    validateLightningAddress
      ((Session.mk 1 "nh_a" "pw" (some "bogus") none none "h1" 1000
        .active).lightning_address.getD "") = none ∧
    handle_ascension ⟨0⟩ (fun _ _ => ⟨true, some "ph", none⟩)
      (Session.mk 1 "nh_a" "pw" (some "bogus") none none "h1" 1000 .active)
      ⟨100, [], []⟩ =
      (none, ⟨100, [], []⟩, []) :=
  ⟨by decide,
   invalid_address_leaves_pool_untouched ⟨0⟩ (fun _ _ => ⟨true, some "ph", none⟩)
     (Session.mk 1 "nh_a" "pw" (some "bogus") none none "h1" 1000 .active)
     ⟨100, [], []⟩ (by decide)⟩

/-! ### Claim C1 -/

/-- Claim C1: for a session with a syntactically valid lightning address
and a positive pool balance, when the external payout call fails,
`handle_ascension` returns none and the final ledger state equals the
initial one — the pool is restored to exactly its pre-drain value by the
compensating `set_pot_balance` call (spec-modelled, since database.py does
not define that method) before the function returns. -/
theorem payout_failure_restores_pot (settings : Settings)
    (pay : String → Int → PaymentResult) (session : Session) (db : DBState)
    (addr : String)
    (hval : validateLightningAddress (session.lightning_address.getD "") = some addr)
    (hpos : 0 < db.pot)
    (hfail : (pay addr db.pot).success = false) :
    handle_ascension settings pay session db = (none, db, [.payLnurl addr db.pot]) := by
  have hla : ¬ session.lightning_address.getD "" = "" := by
    intro hcontra
    rw [hcontra] at hval
    have : validateLightningAddress "" = none := by decide
    rw [this] at hval
    exact Option.noConfusion hval
  unfold handle_ascension Database.drain_pot Database.set_pot_balance
  simp only [hla, if_false, hval]
  have hnotle : ¬ db.pot ≤ 0 := not_le.mpr hpos
  simp [hnotle, hfail]

/-- Witness for C1: concrete failed payout restores a 5000 sat pool. -/
theorem payout_failure_restores_pot_witness :
    validateLightningAddress
      ((Session.mk 1 "nh_hero" "pw" (some "hero@example.com") none (some 42)
        "h1" 1000 .active).lightning_address.getD "") = some "hero@example.com" ∧
    (0 : Int) < (DBState.mk 5000 [] []).pot ∧
    ((fun (_ : String) (_ : Int) =>
        PaymentResult.mk false none (some "boom")) "hero@example.com"
        (DBState.mk 5000 [] []).pot).success = false ∧
    handle_ascension ⟨0⟩ (fun _ _ => ⟨false, none, some "boom"⟩)
      (Session.mk 1 "nh_hero" "pw" (some "hero@example.com") none (some 42)
        "h1" 1000 .active)
      ⟨5000, [], []⟩ =
      (none, ⟨5000, [], []⟩, [.payLnurl "hero@example.com" 5000]) :=
  ⟨by decide, by decide, by decide,
   payout_failure_restores_pot ⟨0⟩ (fun _ _ => ⟨false, none, some "boom"⟩)
     (Session.mk 1 "nh_hero" "pw" (some "hero@example.com") none (some 42)
       "h1" 1000 .active)
     ⟨5000, [], []⟩ "hero@example.com" (by decide) (by decide) (by decide)⟩

/-! ### Concrete fixtures shared by several claims -/

/-- An active session with a valid lightning address and provisioned uid. -/
def sessionActiveEx : Session :=
  ⟨1, "nh_hero", "pw", some "hero@example.com", none, some 42, "h1", 1000, .active⟩

/-- The same session after it has ended. -/
def sessionEndedEx : Session :=
  { sessionActiveEx with status := .ended }

/-- An active session whose username column is empty. -/
def sessionNoCredsEx : Session :=
  { sessionActiveEx with username := "" }

def dbActiveEx : DBState := ⟨5000, [sessionActiveEx], []⟩

def dbEndedEx : DBState := ⟨5000, [sessionEndedEx], []⟩

def dbNoCredsEx : DBState := ⟨5000, [sessionNoCredsEx], []⟩

def dbEmptyEx : DBState := ⟨5000, [], []⟩

/-- A lightning client whose payout always succeeds. -/
def paySuccEx : String → Int → PaymentResult := fun _ _ => ⟨true, some "ph", none⟩

/-- A wizard-mode (cheat-flagged) winning xlogfile record for uid 42. -/
def entryWizardEx : XlogEntry :=
  ⟨none, 9999, none, none, none, none, none, none, none, none, some 42, none,
   none, none, none, "Hero", "ascended to demigod-hood", none, 100, none, none,
   none, none, none, none, some "0x1"⟩

/-- A genuine (non-cheat) winning xlogfile record for uid 42. -/
def entryWinEx : XlogEntry :=
  { entryWizardEx with flags := some "0x0", points := 5000 }

/-! ### Claim C4 -/

/-- Claim C4 fails on the code: the sessions SCHEMA has no access_token
column, so every stored token reads back as None and coerces to the empty
string; a caller presenting no token at all then passes the constant-time
comparison, and the bridge proceeds to attempt the upstream SSH
connection instead of rejecting.  This theorem evaluates the code on that
failing input: for any active or playing session with nonempty
credentials, an attach with a missing presented token reaches
`SSHBridge.connect`. -/
theorem missing_token_reaches_ssh_connect (db : DBState) (sid : Nat)
    (s : Session) (sshOk : Bool)
    (hfind : Database.get_session sid db = some s)
    (hstat : s.status = .active ∨ s.status = .playing)
    (huser : s.username ≠ "") (hpass : s.password ≠ "") :
    (websocket_terminal db sid none sshOk).head? =
      some (.sshConnect s.username s.password) := by
  unfold websocket_terminal compare_digest
  rw [hfind]
  simp only [Option.getD]
  simp [hstat, huser, hpass]
  cases sshOk <;> simp

/-- Witness for C4: the concrete active session, no token presented. -/
theorem missing_token_reaches_ssh_connect_witness :
    Database.get_session 1 dbActiveEx = some sessionActiveEx ∧
    (sessionActiveEx.status = .active ∨ sessionActiveEx.status = .playing) ∧
    sessionActiveEx.username ≠ "" ∧
    sessionActiveEx.password ≠ "" ∧
    (websocket_terminal dbActiveEx 1 none false).head? =
      some (.sshConnect sessionActiveEx.username sessionActiveEx.password) :=
  ⟨by decide, by decide, by decide, by decide,
   missing_token_reaches_ssh_connect dbActiveEx 1 sessionActiveEx false
     (by decide) (by decide) (by decide) (by decide)⟩

/-! ### Claim C6 -/

/-- Counterexample to claim C6: the session-not-in-playable-state outcome
and the bad-token outcome are two different error outcomes of
`websocket_terminal`, yet both are signalled with close code 4003, so not
every pair of distinct error outcomes has distinct close codes. -/
theorem close_codes_collide_4003 :
    websocket_terminal dbEndedEx 1 none true =
      [.sendText "Error: Session is not active", .close (some 4003)] ∧
    websocket_terminal dbActiveEx 1 (some "wrongtoken") true =
      [.sendText "Error: Invalid access token", .close (some 4003)] := by
  decide

/-- Amended claim C6: the five error outcomes use close codes 4004
(session not found), 4003 (not in playable state), 4003 (bad token), 4002
(missing credential) and 4001 (upstream connect failure); every pair of
distinct error outcomes is distinguishable by its close code except the
not-playable/bad-token pair, which share 4003. -/
theorem close_codes_enumeration :
    (websocket_terminal dbEmptyEx 1 none true).getLast? =
      some (.close (some 4004)) ∧
    (websocket_terminal dbEndedEx 1 none true).getLast? =
      some (.close (some 4003)) ∧
    (websocket_terminal dbActiveEx 1 (some "wrongtoken") true).getLast? =
      some (.close (some 4003)) ∧
    (websocket_terminal dbNoCredsEx 1 none true).getLast? =
      some (.close (some 4002)) ∧
    (websocket_terminal dbActiveEx 1 none false).getLast? =
      some (.close (some 4001)) ∧
    (4004 : Nat) ≠ 4003 ∧ (4004 : Nat) ≠ 4002 ∧ (4004 : Nat) ≠ 4001 ∧
    (4003 : Nat) ≠ 4002 ∧ (4003 : Nat) ≠ 4001 ∧ (4002 : Nat) ≠ 4001 := by
  decide

/-! ### Claim C5 -/

/-- Claim C5 fails on the code at the recording step: for a wizard-mode
winning record that resolves to a tracked session, the handler correctly
attempts no payout (and leaves the ledger untouched), but the
`db.create_game` call raises TypeError because of keyword arguments that
`Database.create_game` does not declare, so no GameOutcome is recorded at
all (and its won=false, tagged-description, zero-score fields are never
written). -/
theorem cheat_win_type_error_no_payout (settings : Settings)
    (pay : String → Int → PaymentResult) (entry : XlogEntry) (db : DBState)
    (uid : Int) (session : Session)
    (huid : entry.uid = some uid)
    (hwiz : entry.is_wizard_mode = true)
    (_hwin : entry.ascendedB = true)
    (hfind : Database.get_session_by_uid uid db = some session) :
    handleGameEnd settings pay entry db = (.error .typeError, db, []) := by
  have hpred := List.find?_some hfind
  have hstat : session.status = .active ∨ session.status = .playing :=
    (of_decide_eq_true hpred).2
  have hcheat : entry.is_cheat_mode = true := by
    unfold XlogEntry.is_cheat_mode
    rw [hwiz]
    simp
  unfold handleGameEnd
  rw [huid]
  simp only [Database.get_session_by_uid] at hfind
  simp only [Database.get_session_by_uid, hfind]
  simp [hstat, hcheat]

/-- Witness for C5: the concrete wizard-mode ascension record. -/
theorem cheat_win_type_error_no_payout_witness :
    entryWizardEx.uid = some 42 ∧
    entryWizardEx.is_wizard_mode = true ∧
    entryWizardEx.ascendedB = true ∧
    Database.get_session_by_uid 42 dbActiveEx = some sessionActiveEx ∧
    handleGameEnd ⟨0⟩ paySuccEx entryWizardEx dbActiveEx =
      (.error .typeError, dbActiveEx, []) :=
  ⟨by decide, by decide, by decide, by decide,
   cheat_win_type_error_no_payout ⟨0⟩ paySuccEx entryWizardEx dbActiveEx 42
     sessionActiveEx (by decide) (by decide) (by decide) (by decide)⟩

/-! ### Claim C3 -/

/-- Claim C3 fails on the code: for every record that resolves to an
active or playing session, the completion handler raises TypeError at the
`db.create_game` call (whose keyword arguments `Database.create_game`
does not declare), so no GameOutcome is ever written and the session is
never transitioned to ended — the game rows and session rows are exactly
those of the initial state. -/
theorem game_end_type_error_blocks_recording (settings : Settings)
    (pay : String → Int → PaymentResult) (entry : XlogEntry) (db : DBState)
    (uid : Int) (session : Session)
    (huid : entry.uid = some uid)
    (hfind : Database.get_session_by_uid uid db = some session) :
    (handleGameEnd settings pay entry db).1 = .error .typeError ∧
    (handleGameEnd settings pay entry db).2.1.games = db.games ∧
    (handleGameEnd settings pay entry db).2.1.sessions = db.sessions := by
  have hpred := List.find?_some hfind
  have hstat : session.status = .active ∨ session.status = .playing :=
    (of_decide_eq_true hpred).2
  unfold handleGameEnd
  rw [huid]
  simp only [Database.get_session_by_uid] at hfind
  simp only [Database.get_session_by_uid, hfind]
  by_cases hc : entry.ascendedB = true ∧ entry.is_cheat_mode = false
  · have hsg := handle_ascension_sessions_games settings pay session db
    simp [hstat, hc, hsg.1, hsg.2]
  · simp [hstat, hc]

/-- Witness for C3: a genuine winning record for the active session; even
on the successful-payout path the handler surfaces TypeError and records
nothing. -/
theorem game_end_type_error_blocks_recording_witness :
    entryWinEx.uid = some 42 ∧
    Database.get_session_by_uid 42 dbActiveEx = some sessionActiveEx ∧
    ((handleGameEnd ⟨0⟩ paySuccEx entryWinEx dbActiveEx).1 = .error .typeError ∧
     (handleGameEnd ⟨0⟩ paySuccEx entryWinEx dbActiveEx).2.1.games =
       dbActiveEx.games ∧
     (handleGameEnd ⟨0⟩ paySuccEx entryWinEx dbActiveEx).2.1.sessions =
       dbActiveEx.sessions) :=
  ⟨by decide, by decide,
   game_end_type_error_blocks_recording ⟨0⟩ paySuccEx entryWinEx dbActiveEx 42
     sessionActiveEx (by decide) (by decide)⟩

/-! ### Claim C8: parser robustness lemmas -/

lemma splitOnChar_chars (sep : Char) :
    ∀ (cs : List Char), ∀ f ∈ splitOnChar sep cs, ∀ c ∈ f, c ∈ cs := by
  intro cs
  induction cs with
  | nil =>
      intro f hf c hc
      simp only [splitOnChar, List.mem_singleton] at hf
      subst hf
      simp at hc
  | cons x xs ih =>
      intro f hf c hc
      by_cases hx : x = sep
      · simp only [splitOnChar, hx, if_pos rfl] at hf
        rcases List.mem_cons.mp hf with h | h
        · subst h; simp at hc
        · exact List.mem_cons_of_mem _ (ih f h c hc)
      · simp only [splitOnChar, hx, if_false, if_neg hx] at hf
        cases hrec : splitOnChar sep xs with
        | nil =>
            rw [hrec] at hf
            simp only [List.mem_singleton] at hf
            subst hf
            rcases List.mem_cons.mp hc with h | h
            · subst h; exact List.mem_cons_self _ _
            · simp at h
        | cons f0 rest =>
            rw [hrec] at hf
            rcases List.mem_cons.mp hf with h | h
            · subst h
              rcases List.mem_cons.mp hc with h | h
              · subst h; exact List.mem_cons_self _ _
              · exact List.mem_cons_of_mem _
                  (ih f0 (hrec ▸ List.mem_cons_self f0 rest) c h)
            · exact List.mem_cons_of_mem _
                (ih f (hrec ▸ List.mem_cons_of_mem f0 h) c hc)

lemma colonLoop_chars :
    ∀ (cs : List Char) (inV : Bool) (cur : List Char),
      ∀ f ∈ colonLoop cs inV cur, ∀ c ∈ f, c ∈ cs ∨ c ∈ cur := by
  intro cs
  induction cs with
  | nil =>
      intro inV cur f hf c hc
      simp only [colonLoop] at hf
      by_cases hcur : cur.isEmpty
      · rw [if_pos hcur] at hf
        simp at hf
      · rw [if_neg hcur] at hf
        simp only [List.mem_singleton] at hf
        subst hf
        exact Or.inr hc
  | cons x xs ih =>
      intro inV cur f hf c hc
      by_cases h1 : x = ':' ∧ inV = false
      · simp only [colonLoop, if_pos h1] at hf
        by_cases hcur : cur.isEmpty
        · rw [if_pos hcur] at hf
          rcases ih inV [] f hf c hc with h | h
          · exact Or.inl (List.mem_cons_of_mem _ h)
          · simp at h
        · rw [if_neg hcur] at hf
          rcases List.mem_cons.mp hf with h | h
          · subst h; exact Or.inr hc
          · rcases ih inV [] f h c hc with h2 | h2
            · exact Or.inl (List.mem_cons_of_mem _ h2)
            · simp at h2
      · by_cases h2 : x = '='
        · simp only [colonLoop, if_neg h1, if_pos h2] at hf
          rcases ih true (cur ++ ['=']) f hf c hc with h | h
          · exact Or.inl (List.mem_cons_of_mem _ h)
          · rcases List.mem_append.mp h with h3 | h3
            · exact Or.inr h3
            · simp only [List.mem_singleton] at h3
              subst h3
              exact Or.inl (h2 ▸ List.mem_cons_self x xs)
        · simp only [colonLoop, if_neg h1, if_neg h2] at hf
          rcases ih inV (cur ++ [x]) f hf c hc with h | h
          · exact Or.inl (List.mem_cons_of_mem _ h)
          · rcases List.mem_append.mp h with h3 | h3
            · exact Or.inr h3
            · simp only [List.mem_singleton] at h3
              rw [h3]
              exact Or.inl (List.mem_cons_self x xs)

lemma insertField_no_eq {d : List (String × String)} {f : List Char}
    (h : '=' ∉ f) : insertField d f = d := by
  unfold insertField
  rw [if_neg]
  simpa using h

lemma foldl_insertField_nil :
    ∀ (fields : List (List Char)) (d : List (String × String)),
      (∀ f ∈ fields, '=' ∉ f) → fields.foldl insertField d = d := by
  intro fields
  induction fields with
  | nil => intro d _; rfl
  | cons f fs ih =>
      intro d h
      have h1 : insertField d f = d :=
        insertField_no_eq (h f (List.mem_cons_self f fs))
      simp only [List.foldl_cons, h1]
      exact ih d (fun g hg => h g (List.mem_cons_of_mem f hg))

/-- Claim C8: `parse_xlogfile_line` is total in this embedding (every
raising operation of the source is guarded or caught), and on the empty
string, a whitespace-only string, or any string containing no equals sign
it returns none. -/
theorem parse_xlogfile_line_rejects_eqless (s : String)
    (h : pyStrip s = "" ∨ '=' ∉ s.data) :
    parse_xlogfile_line s = none := by
  unfold parse_xlogfile_line
  by_cases hempty : (pyStripList s.data).isEmpty
  · simp [hempty]
  · have hno : '=' ∉ s.data := by
      cases h with
      | inl h1 =>
          exfalso
          apply hempty
          have h2 : (pyStrip s).data = ("" : String).data := congrArg String.data h1
          simp only [pyStrip] at h2
          simp [h2]
      | inr h2 => exact h2
    have hnostrip : '=' ∉ pyStripList s.data :=
      fun hc => hno (mem_of_mem_pyStripList hc)
    have hfieldsAll : ∀ f ∈ (if (pyStripList s.data).contains '\t' then
          splitOnChar '\t' (pyStripList s.data)
        else
          let fs := colonLoop (pyStripList s.data) false []
          if fs.isEmpty ∨ ¬ fs.any (fun f => f.contains '=') then
            splitOnChar ':' (pyStripList s.data)
          else fs), '=' ∉ f := by
      intro f hf he
      by_cases ht : (pyStripList s.data).contains '\t'
      · rw [if_pos ht] at hf
        exact hnostrip (splitOnChar_chars '\t' (pyStripList s.data) f hf '=' he)
      · rw [if_neg ht] at hf
        simp only at hf
        by_cases h2 : (colonLoop (pyStripList s.data) false []).isEmpty ∨
            ¬ (colonLoop (pyStripList s.data) false []).any (fun f => f.contains '=')
        · rw [if_pos h2] at hf
          exact hnostrip (splitOnChar_chars ':' (pyStripList s.data) f hf '=' he)
        · rw [if_neg h2] at hf
          rcases colonLoop_chars (pyStripList s.data) false [] f hf '=' he with h3 | h3
          · exact hnostrip h3
          · simp at h3
    have hdata := foldl_insertField_nil _ [] hfieldsAll
    simp only [hempty, if_false, hdata]
    simp

/-- Witness for C8: a whitespace-only line and an equals-free line. -/
theorem parse_xlogfile_line_rejects_eqless_witness :
    (pyStrip "   \n" = "" ∨ '=' ∉ "   \n".data) ∧
    parse_xlogfile_line "   \n" = none ∧
    (pyStrip "abc:def" = "" ∨ '=' ∉ "abc:def".data) ∧
    parse_xlogfile_line "abc:def" = none :=
  ⟨Or.inl (by decide),
   parse_xlogfile_line_rejects_eqless "   \n" (Or.inl (by decide)),
   Or.inr (by decide),
   parse_xlogfile_line_rejects_eqless "abc:def" (Or.inr (by decide))⟩

/-! ### Claims C9 and C10: incremental tailing -/

/-- A chunk whose only possible newline is its final character is read back
as a single line by the text-file line iteration, appended to whatever
partial line the accumulator holds. -/
lemma pyLinesAux_single :
    ∀ (l : List Char) (acc : List Char), l ≠ [] →
      (∀ c ∈ l.dropLast, c ≠ '\n') → pyLinesAux l acc = [acc ++ l] := by
  intro l
  induction l with
  | nil => intro acc hne _; exact absurd rfl hne
  | cons x xs ih =>
      intro acc _ hnl
      cases xs with
      | nil =>
          by_cases hx : x = '\n'
          · subst hx
            simp [pyLinesAux]
          · simp only [pyLinesAux, if_neg hx]
            simp
      | cons y ys =>
          have hx : x ≠ '\n' := by
            apply hnl
            simp [List.dropLast]
          have hstep : pyLinesAux (x :: y :: ys) acc =
              pyLinesAux (y :: ys) (acc ++ [x]) := by
            rw [pyLinesAux, if_neg hx]
          rw [hstep, ih (acc ++ [x]) (by simp) (fun c hc => by
            apply hnl
            simp only [List.dropLast_cons₂, List.mem_cons]
            right
            exact hc)]
          simp

/-- Claim C9: `tail_xlogfile` on a missing file yields an empty batch and
offset 0; after a file with content `cl` has been read to its end, an
appended single parseable record `rl` is returned exactly once with the
advanced offset, and a further call at the advanced offset with no new
writes yields an empty batch and the same offset. -/
theorem tail_xlogfile_incremental (P : Nat) (cl rl : List Char) (e : XlogEntry)
    (hparse : parse_xlogfile_line ⟨rl⟩ = some e)
    (hne : rl ≠ [])
    (hnl : ∀ c ∈ rl.dropLast, c ≠ '\n') :
    tail_xlogfile none P = ([], 0) ∧
    tail_xlogfile (some ⟨cl ++ rl⟩) cl.length =
      ([e], cl.length + rl.length) ∧
    tail_xlogfile (some ⟨cl ++ rl⟩) (cl.length + rl.length) =
      ([], cl.length + rl.length) := by
  refine ⟨rfl, ?_, ?_⟩
  · show (((pyLinesAux ((cl ++ rl).drop cl.length) []).filterMap
        (fun l => parse_xlogfile_line ⟨l⟩)),
        max cl.length (cl ++ rl).length) = ([e], cl.length + rl.length)
    rw [List.drop_left, pyLinesAux_single rl [] hne hnl]
    simp [hparse, List.length_append, Nat.max_eq_right (Nat.le_add_right _ _)]
  · show (((pyLinesAux ((cl ++ rl).drop (cl.length + rl.length)) []).filterMap
        (fun l => parse_xlogfile_line ⟨l⟩)),
        max (cl.length + rl.length) (cl ++ rl).length) =
        ([], cl.length + rl.length)
    have hlen : (cl ++ rl).length = cl.length + rl.length := List.length_append cl rl
    rw [← hlen, List.drop_length]
    simp [pyLinesAux, hlen]

/-- Pre-existing file content used by the tailing witness. -/
def clEx : List Char := "points=1\tuid=3\n".data

/-- The single appended record used by the tailing witness. -/
def rlEx : List Char := "points=10\tname=Hero\tdeath=escaped\tturns=5\tuid=42\n".data

/-- The parse of `rlEx`. -/
def entryTailEx : XlogEntry :=
  ⟨none, 10, none, none, none, none, none, none, none, none, some 42, none,
   none, none, none, "Hero", "escaped", none, 5, none, none, none, none, none,
   none, none⟩

/-- Witness for C9: one record appended after the first full read is
returned exactly once, and a further read returns nothing at the same
offset. -/
theorem tail_xlogfile_incremental_witness :
    parse_xlogfile_line ⟨rlEx⟩ = some entryTailEx ∧
    rlEx ≠ [] ∧
    (∀ c ∈ rlEx.dropLast, c ≠ '\n') ∧
    (tail_xlogfile none 7 = ([], 0) ∧
     tail_xlogfile (some ⟨clEx ++ rlEx⟩) clEx.length =
       ([entryTailEx], clEx.length + rlEx.length) ∧
     tail_xlogfile (some ⟨clEx ++ rlEx⟩) (clEx.length + rlEx.length) =
       ([], clEx.length + rlEx.length)) :=
  ⟨by decide, by decide, by decide,
   tail_xlogfile_incremental 7 clEx rlEx entryTailEx (by decide) (by decide)
     (by decide)⟩

/-! ### Claim C10 -/

/-- Claim C10: the watcher's offset is initialised to the end of the file
at construction time (0 when the file does not exist), so the entries a
later `get_new_entries` returns are computed from the appended suffix
alone: records wholly contained in the content present at construction are
never returned. -/
theorem watcher_dispatches_only_appended (c0 a : List Char) :
    (XlogfileWatcher.init none).position = 0 ∧
    (XlogfileWatcher.init (some ⟨c0⟩)).position = c0.length ∧
    XlogfileWatcher.get_new_entries (some ⟨c0 ++ a⟩)
        (XlogfileWatcher.init (some ⟨c0⟩)) =
      ((pyLinesAux a []).filterMap (fun l => parse_xlogfile_line ⟨l⟩),
       ⟨c0.length + a.length⟩) := by
  refine ⟨rfl, rfl, ?_⟩
  simp only [XlogfileWatcher.get_new_entries, XlogfileWatcher.init,
    tail_xlogfile]
  rw [List.drop_left]
  simp [List.length_append, Nat.max_eq_right (Nat.le_add_right _ _)]

/-! ### Claim C2: idempotency of the confirmation gate -/

lemma list_map_id_on {α : Type} (f : α → α) :
    ∀ (l : List α), (∀ x ∈ l, f x = x) → l.map f = l := by
  intro l
  induction l with
  | nil => intro _; rfl
  | cons x xs ih =>
      intro hfix
      simp only [List.map_cons]
      rw [hfix x (List.mem_cons_self x xs),
        ih (fun y hy => hfix y (List.mem_cons_of_mem x hy))]

lemma find?_hash_map (h : String) (f : Session → Session)
    (hpres : ∀ t, (f t).payment_hash = t.payment_hash) (l : List Session) :
    List.find? (fun t => t.payment_hash = h) (l.map f) =
      Option.map f (List.find? (fun t => t.payment_hash = h) l) := by
  have hfun : ((fun t : Session => decide (t.payment_hash = h)) ∘ f) =
      (fun t : Session => decide (t.payment_hash = h)) :=
    funext fun t => by simp [Function.comp, hpres t]
  rw [List.find?_map, hfun]

lemma forall_id_status_map (l : List Session) (f : Session → Session) (i : Nat)
    (hpresid : ∀ t, (f t).id = t.id)
    (hstat : ∀ t ∈ l, t.id = i → (f t).status = .active) :
    ∀ t' ∈ l.map f, t'.id = i → t'.status = .active := by
  intro t' ht' hid2
  obtain ⟨t, ht, rfl⟩ := List.mem_map.mp ht'
  exact hstat t ht ((hpresid t) ▸ hid2)

/-- Shape of `confirm_payment` once the key is a nonempty payment hash that
resolves to a session: the truthiness tests and the lookup are discharged. -/
lemma confirm_payment_found (h : String) (skip : Bool) (prov : Option Int)
    (db : DBState) (s : Session)
    (hh : h ≠ "")
    (hfind : Database.get_session_by_payment_hash h db = some s) :
    confirm_payment (some h) none skip prov db =
      (let wp := Database.update_session_status_if_pending s.id .active db
       if ¬ wp.1 then
         ({ success := true, session_id := some s.id, username := some s.username,
            pot_balance := none, error := none, already_processed := true }, wp.2)
       else
         let ap := Database.add_to_pot s.ante_sats wp.2
         let db3 := if ¬ skip then (match prov with
            | some uid => Database.set_linux_uid s.id uid ap.2
            | none => ap.2) else ap.2
         ({ success := true, session_id := some s.id, username := some s.username,
            pot_balance := some ap.1, error := none, already_processed := false },
          db3)) := by
  unfold confirm_payment
  simp [pyTruthyOptNat, pyTruthyOptStr, hh, hfind]

/-- First call of `confirm_payment` on a pending session: the atomic
transition succeeds, the pool is credited by the session ante, and the
resulting state resolves the same key to an active row. -/
lemma confirm_payment_pending (h : String) (skip : Bool) (prov : Option Int)
    (db : DBState) (s : Session)
    (hh : h ≠ "")
    (hfind : Database.get_session_by_payment_hash h db = some s)
    (hpend : s.status = .pending)
    (hid : ∀ t ∈ db.sessions, t.id = s.id → t = s) :
    (confirm_payment (some h) none skip prov db).1 =
      { success := true, session_id := some s.id, username := some s.username,
        pot_balance := some (db.pot + s.ante_sats), error := none,
        already_processed := false } ∧
    (confirm_payment (some h) none skip prov db).2.pot = db.pot + s.ante_sats ∧
    (∃ s1, Database.get_session_by_payment_hash h
        (confirm_payment (some h) none skip prov db).2 = some s1 ∧
      s1.id = s.id ∧ s1.username = s.username) ∧
    (∀ t ∈ (confirm_payment (some h) none skip prov db).2.sessions,
      t.id = s.id → t.status = .active) := by
  have hmem : s ∈ db.sessions := List.mem_of_find?_eq_some hfind
  have hany : (db.sessions.any
      (fun t => t.id = s.id ∧ t.status = SessionStatus.pending)) = true := by
    simp only [List.any_eq_true]
    exact ⟨s, hmem, by simp [hpend]⟩
  set g : Session → Session := fun t =>
    if t.id = s.id ∧ t.status = SessionStatus.pending then
      { t with status := SessionStatus.active } else t with hgdef
  have hg_hash : ∀ t, (g t).payment_hash = t.payment_hash := by
    intro t
    by_cases hc : t.id = s.id ∧ t.status = SessionStatus.pending <;>
      simp [hgdef, hc]
  have hg_id : ∀ t, (g t).id = t.id := by
    intro t
    by_cases hc : t.id = s.id ∧ t.status = SessionStatus.pending <;>
      simp [hgdef, hc]
  have hgs : g s = { s with status := SessionStatus.active } := by
    simp [hgdef, hpend]
  have hfind_g : List.find? (fun t => t.payment_hash = h) (db.sessions.map g) =
      some (g s) := by
    rw [find?_hash_map h g hg_hash]
    unfold Database.get_session_by_payment_hash at hfind
    rw [hfind]
    rfl
  have hact_g : ∀ t' ∈ db.sessions.map g, t'.id = s.id →
      t'.status = .active := by
    refine forall_id_status_map db.sessions g s.id hg_id ?_
    intro t ht hid2
    rw [hid t ht hid2, hgs]
  rw [confirm_payment_found h skip prov db s hh hfind]
  simp only [Database.update_session_status_if_pending, Database.add_to_pot,
    Database.set_linux_uid, hany, Bool.not_true, Bool.false_eq_true, if_false]
  cases skip with
  | true =>
      simp only [Bool.not_true, Bool.false_eq_true, if_false]
      exact ⟨rfl, rfl, ⟨g s, hfind_g, by rw [hgs], by rw [hgs]⟩, hact_g⟩
  | false =>
      cases prov with
      | none =>
          simp only [Bool.not_false, if_true]
          exact ⟨rfl, rfl, ⟨g s, hfind_g, by rw [hgs], by rw [hgs]⟩, hact_g⟩
      | some uid =>
          simp only [Bool.not_false, if_true]
          set u : Session → Session := fun t =>
            if t.id = s.id then { t with linux_uid := some uid } else t with hudef
          have hu_hash : ∀ t, (u t).payment_hash = t.payment_hash := by
            intro t
            by_cases hc : t.id = s.id <;> simp [hudef, hc]
          have hu_id : ∀ t, (u t).id = t.id := by
            intro t
            by_cases hc : t.id = s.id <;> simp [hudef, hc]
          have hu_status : ∀ t, (u t).status = t.status := by
            intro t
            by_cases hc : t.id = s.id <;> simp [hudef, hc]
          have hu_user : ∀ t, (u t).username = t.username := by
            intro t
            by_cases hc : t.id = s.id <;> simp [hudef, hc]
          refine ⟨rfl, rfl, ⟨u (g s), ?_, ?_, ?_⟩, ?_⟩
          · show List.find? (fun t => t.payment_hash = h)
              ((db.sessions.map g).map u) = some (u (g s))
            rw [find?_hash_map h u hu_hash, hfind_g]
            rfl
          · rw [hu_id, hgs]
          · rw [hu_user, hgs]
          · show ∀ t' ∈ (db.sessions.map g).map u, t'.id = s.id →
              t'.status = .active
            refine forall_id_status_map _ u s.id hu_id ?_
            intro t ht hid2
            rw [hu_status t]
            exact hact_g t ht hid2

/-- Any later call of `confirm_payment` once every row with the resolved
session's id is already active: the atomic transition reports no change,
the call returns alreadyProcessed and the ledger state is untouched. -/
lemma confirm_payment_already (h : String) (skip : Bool) (prov : Option Int)
    (db : DBState) (s1 : Session)
    (hh : h ≠ "")
    (hfind : Database.get_session_by_payment_hash h db = some s1)
    (hact : ∀ t ∈ db.sessions, t.id = s1.id → t.status = .active) :
    confirm_payment (some h) none skip prov db =
      ({ success := true, session_id := some s1.id,
         username := some s1.username, pot_balance := none, error := none,
         already_processed := true }, db) := by
  have hany : (db.sessions.any
      (fun t => t.id = s1.id ∧ t.status = SessionStatus.pending)) = false := by
    simp only [List.any_eq_false]
    intro t ht
    simp only [decide_eq_true_eq, not_and]
    intro hid2 hstatus
    rw [hact t ht hid2] at hstatus
    exact SessionStatus.noConfusion hstatus
  have hmap : db.sessions.map (fun t =>
      if t.id = s1.id ∧ t.status = SessionStatus.pending then
        { t with status := SessionStatus.active } else t) = db.sessions := by
    apply list_map_id_on
    intro t ht
    rw [if_neg]
    rintro ⟨h1, h2⟩
    rw [hact t ht h1] at h2
    exact SessionStatus.noConfusion h2
  rw [confirm_payment_found h skip prov db s1 hh hfind]
  simp only [Database.update_session_status_if_pending, hany, hmap]
  simp

/-- Iterating `confirm_payment` from a state in which the session is
already active is a no-op that returns alreadyProcessed every time. -/
lemma confirmN_steady (h : String) (skip : Bool) (prov : Option Int)
    (db : DBState) (s1 : Session) (m : Nat)
    (hh : h ≠ "")
    (hfind : Database.get_session_by_payment_hash h db = some s1)
    (hact : ∀ t ∈ db.sessions, t.id = s1.id → t.status = .active) :
    confirmN (some h) none skip prov m db =
      (List.replicate m
        ({ success := true, session_id := some s1.id,
           username := some s1.username, pot_balance := none, error := none,
           already_processed := true } : PaymentConfirmationResult), db) := by
  induction m with
  | zero => rfl
  | succ n ih =>
      simp only [confirmN]
      rw [confirm_payment_already h skip prov db s1 hh hfind hact]
      rw [ih]
      simp [List.replicate_succ]

/-- Claim C2: calling `confirm_payment` N times (N at least 1) for the
same pending session, resolved by its payment hash, credits the pool
exactly once by that session's ante and leaves the session active; the
first call reports success with alreadyProcessed false, every later call
reports alreadyProcessed true with no pool reading, and the ledger state
after all N calls equals the state after the first call (the later calls
have no side effects). -/
theorem confirm_payment_idempotent (db : DBState) (s : Session) (h : String)
    (skip : Bool) (prov : Option Int) (n : Nat)
    (hn : 1 ≤ n) (hh : h ≠ "")
    (hfind : Database.get_session_by_payment_hash h db = some s)
    (hpend : s.status = .pending)
    (hid : ∀ t ∈ db.sessions, t.id = s.id → t = s) :
    (confirmN (some h) none skip prov n db).2.pot = db.pot + s.ante_sats ∧
    (∀ t ∈ (confirmN (some h) none skip prov n db).2.sessions,
      t.id = s.id → t.status = .active) ∧
    (confirmN (some h) none skip prov n db).2 =
      (confirmN (some h) none skip prov 1 db).2 ∧
    ((confirmN (some h) none skip prov n db).1.head?.map
      (fun r => (r.success, r.already_processed))) = some (true, false) ∧
    (∀ r ∈ (confirmN (some h) none skip prov n db).1.tail,
      r.success = true ∧ r.already_processed = true ∧ r.pot_balance = none) := by
  obtain ⟨m, rfl⟩ : ∃ m, n = m + 1 :=
    ⟨n - 1, (Nat.succ_pred_eq_of_pos hn).symm⟩
  obtain ⟨hres, hpot, ⟨s1, hfind1, hs1id, hs1user⟩, hact⟩ :=
    confirm_payment_pending h skip prov db s hh hfind hpend hid
  have hact1 : ∀ t ∈ (confirm_payment (some h) none skip prov db).2.sessions,
      t.id = s1.id → t.status = .active := by
    intro t ht hid2
    exact hact t ht (hs1id ▸ hid2)
  have hsteady := confirmN_steady h skip prov
    (confirm_payment (some h) none skip prov db).2 s1 m hh hfind1 hact1
  have hstep : confirmN (some h) none skip prov (m + 1) db =
      ((confirm_payment (some h) none skip prov db).1 ::
        (confirmN (some h) none skip prov m
          (confirm_payment (some h) none skip prov db).2).1,
       (confirmN (some h) none skip prov m
          (confirm_payment (some h) none skip prov db).2).2) := rfl
  have hone : confirmN (some h) none skip prov 1 db =
      ([(confirm_payment (some h) none skip prov db).1],
       (confirm_payment (some h) none skip prov db).2) := rfl
  rw [hstep, hsteady]
  refine ⟨hpot, hact, by rw [hone], ?_, ?_⟩
  · simp [hres]
  · intro r hr
    simp only [List.tail_cons] at hr
    have := List.eq_of_mem_replicate hr
    rw [this]
    exact ⟨rfl, rfl, rfl⟩

/-- A single pending session used by the idempotency witness. -/
def sessionPendEx : Session :=
  ⟨1, "nh_p", "pw", none, none, none, "h1", 1000, .pending⟩

def dbPendEx : DBState := ⟨100, [sessionPendEx], []⟩

/-- Witness for C2: three confirmation calls on the concrete pending
session credit the pool once and report alreadyProcessed after the first. -/
theorem confirm_payment_idempotent_witness :
    1 ≤ 3 ∧ "h1" ≠ "" ∧
    Database.get_session_by_payment_hash "h1" dbPendEx = some sessionPendEx ∧
    sessionPendEx.status = .pending ∧
    (∀ t ∈ dbPendEx.sessions, t.id = sessionPendEx.id → t = sessionPendEx) ∧
    ((confirmN (some "h1") none true none 3 dbPendEx).2.pot =
      dbPendEx.pot + sessionPendEx.ante_sats ∧
    (∀ t ∈ (confirmN (some "h1") none true none 3 dbPendEx).2.sessions,
      t.id = sessionPendEx.id → t.status = .active) ∧
    (confirmN (some "h1") none true none 3 dbPendEx).2 =
      (confirmN (some "h1") none true none 1 dbPendEx).2 ∧
    ((confirmN (some "h1") none true none 3 dbPendEx).1.head?.map
      (fun r => (r.success, r.already_processed))) = some (true, false) ∧
    (∀ r ∈ (confirmN (some "h1") none true none 3 dbPendEx).1.tail,
      r.success = true ∧ r.already_processed = true ∧ r.pot_balance = none)) :=
  ⟨by decide, by decide, by decide, by decide, by decide,
   confirm_payment_idempotent dbPendEx sessionPendEx "h1" true none 3
     (by decide) (by decide) (by decide) (by decide) (by decide)⟩
